import Mathlib

/-!
Verification development for the meteorological data analysis script
(`meteo_data_analize_script.py`).

Modelling conventions.  Timestamps are natural numbers counting minutes
since a fixed epoch (for weekday and date computations the epoch is a
Monday 00:00; for the time-zone model it is 2024-01-01 00:00 UTC); the
day/night masks work on seconds of day because the script compares
`datetime.time` values with second granularity.  Floating-point weather
values are modelled as rationals, so interpolation arithmetic is exact.
A Python exception is an `Except.error`, a Python `None` result is
`Option.none`.
-/

namespace Meteo

/-- Label lookup in a timestamp-indexed table: the value of the first row
whose timestamp matches, if any (pandas keeps the first occurrence). -/
def valueAt {α : Type} (table : List (Nat × α)) (t : Nat) : Option α :=
  (table.find? (fun p => p.1 == t)).map Prod.snd

/-- Floor a timestamp (in minutes) to its 5-minute bin label, as
`resample("5min")` bins do: bins are anchored at midnight and 5 divides
1440, so the label is the absolute multiple-of-5 floor. -/
def floor5 (t : Nat) : Nat := t - t % 5

/-- The `n` consecutive 5-minute grid labels starting at `a`:
`[a, a+5, ..., a+5*(n-1)]`. -/
def grid : Nat → Nat → List Nat
  | _, 0 => []
  | a, n + 1 => a :: grid (a + 5) n

/-- Embeds `series.resample("5min").asfreq().index` (line 142): every
5-minute bin label from the bin of the first timestamp to the bin of the
last timestamp, inclusive. -/
def resampledIndex (ts : List Nat) : List Nat :=
  match ts with
  | [] => []
  | t0 :: rest => grid (floor5 t0) ((floor5 (rest.getLastD t0) - floor5 t0) / 5 + 1)

/-- Embeds line 146 together with the appended end value of line 148:
`(e - s) / 12 * np.arange(1, 12, 1) + s` followed by `e`. -/
def segment (s e : ℚ) : List ℚ :=
  ((List.range 11).map (fun k : ℕ => (e - s) / 12 * (k + 1) + s)) ++ [e]

/-- Embeds the loop of lines 145-149: one `segment` for each consecutive
pair of input values, concatenated in order. -/
def pairSegments : List ℚ → List ℚ
  | [] => []
  | [_] => []
  | s :: e :: rest => segment s e ++ pairSegments (e :: rest)

/-- Embeds lines 144-149: the first input value followed by all generated
segments. -/
def interpValues : List ℚ → List ℚ
  | [] => []
  | v0 :: rest => v0 :: pairSegments (v0 :: rest)

/-- Embeds `custom_linear_interpolation` (lines 141-150).  A raised Python
exception is `Except.error`: an empty series fails at `series.values[0]`
(IndexError), and when the generated data and the resampled index have
different lengths the final `pd.Series(data, index=...)` constructor
raises (ValueError).  Falling off the end of the function without a
`return` (any `interpolation_type` other than `"linear"`) is
`Except.ok none`. -/
def custom_linear_interpolation (series : List (Nat × ℚ))
    (interpolation_type : String) : Except String (Option (List (Nat × ℚ))) :=
  let resampled_index := resampledIndex (series.map Prod.fst)
  if interpolation_type = "linear" then
    match series with
    | [] => Except.error "IndexError: index 0 is out of bounds"
    | _ :: _ =>
      let interpolated_data := interpValues (series.map Prod.snd)
      if interpolated_data.length = resampled_index.length then
        Except.ok (some (resampled_index.zip interpolated_data))
      else
        Except.error "ValueError: Length of values does not match length of index"
  else
    Except.ok none

/-- Value of the series at one grid timestamp `t`: the point on the straight
segment between the two samples bracketing `t`.  This models pandas
`interpolate(method="linear")` applied after `resample("5min").asfreq()`:
on the uniform 5-minute grid pandas' position-proportional filling
coincides with this time-proportional formula.  It is only ever used at
grid labels between the first and the last sample of an aligned series
(positions before the first sample, which pandas would leave as NaN, do
not arise there). -/
def interpAt : List (Nat × ℚ) → Nat → ℚ
  | [], _ => 0
  | [(_, v)], _ => v
  | (t1, v1) :: (t2, v2) :: rest, t =>
    if t ≤ t2 then v1 + ((t : ℚ) - (t1 : ℚ)) * (v2 - v1) / ((t2 : ℚ) - (t1 : ℚ))
    else interpAt ((t2, v2) :: rest) t

/-- Embeds `built_in_interpolation` (lines 152-156) for the one method the
script uses, `"linear"`: resample onto the 5-minute grid and fill every
grid label by linear interpolation between the bracketing samples.  Other
pandas interpolation methods are not modelled (`none`). -/
def built_in_interpolation (series : List (Nat × ℚ))
    (interpolation_method : String) : Option (List (Nat × ℚ)) :=
  if interpolation_method = "linear" then
    some ((resampledIndex (series.map Prod.fst)).map (fun t => (t, interpAt series t)))
  else none

/-- An input series with exactly hourly spacing: timestamps
`t0, t0+60, t0+120, ...` minutes carrying the given values. -/
def hourlySeries (t0 : Nat) : List ℚ → List (Nat × ℚ)
  | [] => []
  | v :: rest => (t0, v) :: hourlySeries (t0 + 60) rest

/-- Stated from the specification's words: the 11 intermediate values
`s + k*(e-s)/12` for `k = 1..11`, followed by the end value `e`. -/
def specSegment (s e : ℚ) : List ℚ :=
  ((List.range 11).map (fun k : ℕ => s + (k + 1) * (e - s) / 12)) ++ [e]

/-- Stated from the specification's words: the segments of all consecutive
pairs of input values, in order. -/
def specPairSegments : List ℚ → List ℚ
  | [] => []
  | [_] => []
  | s :: e :: rest => specSegment s e ++ specPairSegments (e :: rest)

/-- Stated from the specification's words: the sequence that starts with the
first input value and continues with the segment of every consecutive
pair. -/
def specInterpSeq : List ℚ → List ℚ
  | [] => []
  | v0 :: rest => v0 :: specPairSegments (v0 :: rest)

/-- Keep only rows whose timestamp has not been kept before (`seen` collects
the timestamps already kept): embeds the mask
`~all_weather.index.duplicated(keep="first")` of line 126. -/
def dropDupKeys {α : Type} : List Nat → List (Nat × α) → List (Nat × α)
  | _, [] => []
  | seen, p :: rest =>
    if p.1 ∈ seen then dropDupKeys seen rest
    else p :: dropDupKeys (p.1 :: seen) rest

/-- Embeds lines 125-126: concatenate the historical and the forecast table
and drop every row with an already-seen timestamp, keeping the first
occurrence. -/
def all_weather {α : Type} (historical forecast : List (Nat × α)) :
    List (Nat × α) :=
  dropDupKeys [] (historical ++ forecast)

/-- Embeds line 89, `pd.to_datetime("08:00:00").time() <= index.time`, on
local timestamps counted in seconds. -/
def day_start (t : Nat) : Bool := decide (28800 ≤ t % 86400)

/-- Embeds line 90, `pd.to_datetime("20:00:00").time() > index.time`. -/
def day_end (t : Nat) : Bool := decide (t % 86400 < 72000)

/-- Embeds the daytime mask of line 93: `day_start & day_end`. -/
def daytimeMask (t : Nat) : Bool := day_start t && day_end t

/-- Embeds the nighttime mask of line 97: `~day_end | ~day_start`. -/
def nighttimeMask (t : Nat) : Bool := !day_end t || !day_start t

/-- Minute, counted from 2024-01-01 00:00 UTC, at which Europe/Vilnius
enters summer time in 2024: 2024-03-31 01:00 UTC (day 90 of the year). -/
def dstStart : Nat := 90 * 1440 + 60

/-- Minute at which Europe/Vilnius leaves summer time in 2024:
2024-10-27 01:00 UTC (day 300 of the year). -/
def dstEnd : Nat := 300 * 1440 + 60

/-- UTC offset of Europe/Vilnius in minutes during 2024: EET is UTC+2 and
EEST (between the two transitions) is UTC+3. -/
def vilniusOffset (u : Nat) : Nat :=
  if dstStart ≤ u ∧ u < dstEnd then 180 else 120

/-- Embeds lines 45-50 and 58-63: localize a UTC timestamp to
Europe/Vilnius and drop the offset, producing naive local time (minutes,
2024 rules). -/
def toLocalVilnius (u : Nat) : Nat := u + vilniusOffset u

/-- Modelled from the spec: the "converted back to UTC" direction of the
round-trip property.  No such conversion exists in the source; this is
the canonical inverse of `toLocalVilnius`, reading local times that fall
in the duplicated fall-back hour as standard time. -/
def fromLocalVilnius (l : Nat) : Nat :=
  if l < dstStart + 120 then l - 120
  else if l < dstEnd + 120 then l - 180
  else l - 120

/-- Weekday of a local timestamp in minutes counted from a Monday 00:00,
with Python's convention: 0 is Monday, ..., 5 is Saturday, 6 is Sunday. -/
def weekday (t : Nat) : Nat := t / 1440 % 7

/-- Calendar date (day number since the epoch) of a local timestamp. -/
def dateOf (t : Nat) : Nat := t / 1440

/-- Embeds Python's case-sensitive substring test `needle in haystack`. -/
def pyContains (haystack needle : String) : Bool :=
  decide (needle.toList <:+: haystack.toList)

/-- Embeds `"rain" in str(x)` (lines 111-112) applied to a merge cell: a
missing cell is NaN, and `str(nan)` is `"nan"`, which does not contain
`"rain"`. -/
def containsRain : Option String → Bool
  | none => false
  | some s => pyContains s "rain"

/-- Embeds lines 101-103: the Saturday condition-code observations. -/
def satObs (hist : List (Nat × String)) : List (Nat × String) :=
  hist.filter (fun p => weekday p.1 == 5)

/-- Embeds lines 104-107: the Sunday condition-code observations, shifted
back one day so each aligns with its preceding Saturday. -/
def sunObsShifted (hist : List (Nat × String)) : List (Nat × String) :=
  (hist.filter (fun p => weekday p.1 == 6)).map (fun p => (p.1 - 1440, p.2))

/-- The timestamps of the outer merge of lines 108-110: the union of the
Saturday timestamps and the shifted Sunday timestamps. -/
def weekendKeys (hist : List (Nat × String)) : List Nat :=
  ((satObs hist).map Prod.fst ++ (sunObsShifted hist).map Prod.fst).dedup

/-- Embeds lines 111-113: for each merged timestamp, whether the Saturday
cell or the aligned Sunday cell is rainy. -/
def rainyFlags (hist : List (Nat × String)) : List (Nat × Bool) :=
  (weekendKeys hist).map (fun t =>
    (t, containsRain (valueAt (satObs hist) t) ||
        containsRain (valueAt (sunObsShifted hist) t)))

/-- Embeds lines 114-120: the distinct dates carrying at least one rainy
flag (the dates the groupby-any pipeline counts). -/
def countedDates (hist : List (Nat × String)) : List Nat :=
  (((rainyFlags hist).filter (fun p => p.2)).map (fun p => dateOf p.1)).dedup

/-- Embeds lines 115-122: the number of rainy weekends. -/
def rainy_weekend_count (hist : List (Nat × String)) : Nat :=
  (countedDates hist).length

/-- Outcome of one `req.get` call (line 24): either the call raises (a
transport error) or it returns a response carrying a status code and, for
a success, the parsed "observations" list of the JSON body. -/
inductive HttpOutcome where
  | exn : HttpOutcome
  | response : Nat → List String → HttpOutcome

/-- Embeds `WeatherData.__fetch_data` (lines 22-31): a raised transport
error is caught and logged (`none`), a non-200 status is logged (`none`),
and a 200 response yields the parsed JSON body. -/
def fetchData : HttpOutcome → Option (List String)
  | HttpOutcome.exn => none
  | HttpOutcome.response code body => if code = 200 then some body else none

/-- Embeds the daily loop of `load_historical_data` (lines 38-42), driven by
the per-day HTTP outcomes.  Each day contributes
`self.__fetch_data(url)["observations"]`, so a day whose fetch produced
no data subscripts `None` and raises a `TypeError` that unwinds out of
the whole load. -/
def load_historical_data : List HttpOutcome → Except String (List String)
  | [] => Except.ok []
  | day :: rest =>
    match fetchData day with
    | none => Except.error "TypeError: NoneType object is not subscriptable"
    | some observations =>
      match load_historical_data rest with
      | Except.ok records => Except.ok (observations ++ records)
      | Except.error e => Except.error e

/-- C7: the day/night classifier marks a timestamp daytime exactly when its
local time of day lies in the half-open interval [08:00, 20:00), and
nighttime exactly on the complement; 08:00:00 exactly is daytime and
20:00:00 exactly is nighttime. -/
theorem day_night_classification :
    (∀ t : Nat, daytimeMask t = true ↔ 28800 ≤ t % 86400 ∧ t % 86400 < 72000) ∧
    (∀ t : Nat, nighttimeMask t = !daytimeMask t) ∧
    daytimeMask 28800 = true ∧ nighttimeMask 72000 = true := by
  refine ⟨fun t => ?_, fun t => ?_, by decide, by decide⟩
  · simp [daytimeMask, day_start, day_end]
  · cases h1 : day_start t <;> cases h2 : day_end t <;>
      simp [nighttimeMask, daytimeMask, h1, h2]

/-- C10: with any interpolation type other than "linear" the function falls
through without returning and yields `None`, raising no error. -/
theorem non_linear_type_returns_none (series : List (Nat × ℚ))
    (interpolation_type : String) (h : interpolation_type ≠ "linear") :
    custom_linear_interpolation series interpolation_type = Except.ok none := by
  simp [custom_linear_interpolation, h]

/-- Witness for C10 at a concrete series and the type "cubic". -/
theorem non_linear_type_returns_none_witness :
    "cubic" ≠ "linear" ∧
      custom_linear_interpolation [(0, (1 : ℚ))] "cubic" = Except.ok none :=
  ⟨by decide, non_linear_type_returns_none [(0, (1 : ℚ))] "cubic" (by decide)⟩

/-- C2 fails on the code: a single-point series does not raise; the function
returns a degenerate single-point series. -/
theorem single_point_returns_series :
    custom_linear_interpolation [(0, (3 : ℚ))] "linear" =
      Except.ok (some [(0, (3 : ℚ))]) := rfl

/-- C2 amended: an empty series raises (the IndexError of
`series.values[0]`), but a single-point series returns the degenerate
series holding just that point at its 5-minute bin label, instead of
failing. -/
theorem fewer_than_two_points_behavior :
    custom_linear_interpolation ([] : List (Nat × ℚ)) "linear" =
        Except.error "IndexError: index 0 is out of bounds" ∧
      ∀ (t : Nat) (v : ℚ), custom_linear_interpolation [(t, v)] "linear" =
        Except.ok (some [(floor5 t, v)]) := by
  refine ⟨rfl, fun t v => ?_⟩
  simp [custom_linear_interpolation, resampledIndex, interpValues, pairSegments,
    grid]

/-- C9: the fetch layer catches transport errors and non-success statuses
and yields no data for that call, but the historical loop then subscripts
that missing result, so one failed day aborts the whole load with a
TypeError instead of degrading to a partial batch. -/
theorem fetch_failure_aborts_load :
    fetchData HttpOutcome.exn = none ∧
    fetchData (HttpOutcome.response 500 []) = none ∧
    load_historical_data
        [HttpOutcome.response 500 [], HttpOutcome.response 200 ["obs"]] =
      Except.error "TypeError: NoneType object is not subscriptable" :=
  ⟨rfl, rfl, rfl⟩

/-- C6 fails on the code: the fall-back transition duplicates one local
hour, so the two distinct UTC timestamps 2024-10-27 00:30 UTC and
2024-10-27 01:30 UTC share a single naive local image, and no
back-conversion can recover both; the modelled inverse indeed
mis-recovers the first of them. -/
theorem tz_round_trip_ambiguous_counterexample :
    toLocalVilnius 432030 = toLocalVilnius 432090 ∧ (432030 : Nat) ≠ 432090 ∧
      fromLocalVilnius (toLocalVilnius 432030) ≠ 432030 := by decide

/-- C6 amended: outside the duplicated fall-back hour (UTC interval
[dstEnd - 60, dstEnd)) converting the naive local index back to UTC
recovers the original timestamp exactly. -/
theorem tz_round_trip_outside_fold (u : Nat)
    (h : ¬(dstEnd - 60 ≤ u ∧ u < dstEnd)) :
    fromLocalVilnius (toLocalVilnius u) = u := by
  simp only [fromLocalVilnius, toLocalVilnius, vilniusOffset, dstStart, dstEnd] at *
  split_ifs at * <;> omega

/-- Witness for the amended C6 at the concrete timestamp 1000. -/
theorem tz_round_trip_outside_fold_witness :
    ¬(dstEnd - 60 ≤ 1000 ∧ 1000 < dstEnd) ∧
      fromLocalVilnius (toLocalVilnius 1000) = 1000 :=
  ⟨by decide, tz_round_trip_outside_fold 1000 (by decide)⟩

/-- C3 fails on the code: a 2-point series spaced 2 hours apart yields 25
real-elapsed-time grid labels but only 13 fixed-spacing values, and the
final series constructor raises a length mismatch instead of returning a
misaligned series. -/
theorem non_hourly_length_mismatch_raises :
    custom_linear_interpolation [(0, (0 : ℚ)), (120, 12)] "linear" =
      Except.error "ValueError: Length of values does not match length of index" :=
  rfl

/-- The grid has as many labels as requested. -/
theorem grid_length (a n : Nat) : (grid a n).length = n := by
  induction n generalizing a with
  | zero => rfl
  | succ n ih => simp [grid, ih]

/-- The grid is the arithmetic sequence `a + 5*k` for `k < n`. -/
theorem grid_eq_range_map (a n : Nat) :
    grid a n = (List.range n).map (fun k => a + 5 * k) := by
  induction n generalizing a with
  | zero => rfl
  | succ n ih =>
    rw [List.range_succ_eq_map, List.map_cons, List.map_map]
    simp only [Nat.mul_zero, Nat.add_zero]
    show a :: grid (a + 5) n = _
    rw [ih (a + 5)]
    exact congrArg (List.cons a) (List.map_congr_left fun k _ => by
      show a + 5 + 5 * k = a + 5 * (k + 1)
      omega)

/-- Splitting a grid after its first `m` labels. -/
theorem grid_add (a m n : Nat) :
    grid a (m + n) = grid a m ++ grid (a + 5 * m) n := by
  induction m generalizing a with
  | zero => simp [grid]
  | succ m ih =>
    have : m + 1 + n = (m + n) + 1 := by omega
    rw [this]
    simp only [grid, ih (a + 5), List.cons_append]
    have : a + 5 + 5 * m = a + 5 * (m + 1) := by omega
    rw [this]

/-- The values of an hourly series are the given values. -/
theorem hourlySeries_map_snd (t0 : Nat) (vs : List ℚ) :
    (hourlySeries t0 vs).map Prod.snd = vs := by
  induction vs generalizing t0 with
  | nil => rfl
  | cons v rest ih => simp [hourlySeries, ih]

/-- Last timestamp of a nonempty hourly series. -/
theorem hourlySeries_getLastD (vs : List ℚ) (t0 d : Nat) (h : vs ≠ []) :
    (((hourlySeries t0 vs).map Prod.fst).getLastD d) = t0 + 60 * (vs.length - 1) := by
  induction vs generalizing t0 d with
  | nil => exact absurd rfl h
  | cons v rest ih =>
    cases rest with
    | nil => simp [hourlySeries]
    | cons v1 rest1 =>
      have step : hourlySeries t0 (v :: v1 :: rest1) =
          (t0, v) :: hourlySeries (t0 + 60) (v1 :: rest1) := rfl
      rw [step, List.map_cons, List.getLastD_cons]
      rw [ih (t0 + 60) t0 (by simp)]
      simp only [List.length_cons]
      omega

/-- A timestamp that is a multiple of 5 is its own bin label. -/
theorem floor5_eq_self (t : Nat) (h : t % 5 = 0) : floor5 t = t := by
  simp [floor5, h]

/-- The resampled index of an aligned hourly series is the grid of
`12 * (n - 1) + 1` labels starting at the first timestamp. -/
theorem resampledIndex_hourly (t0 : Nat) (vs : List ℚ) (h5 : t0 % 5 = 0)
    (h : vs ≠ []) :
    resampledIndex ((hourlySeries t0 vs).map Prod.fst) =
      grid t0 (12 * (vs.length - 1) + 1) := by
  cases vs with
  | nil => exact absurd rfl h
  | cons v rest =>
    have step : (hourlySeries t0 (v :: rest)).map Prod.fst =
        t0 :: (hourlySeries (t0 + 60) rest).map Prod.fst := rfl
    rw [step]
    show grid (floor5 t0)
        ((floor5 (((hourlySeries (t0 + 60) rest).map Prod.fst).getLastD t0) -
          floor5 t0) / 5 + 1) = _
    cases rest with
    | nil =>
      show grid (floor5 t0) ((floor5 t0 - floor5 t0) / 5 + 1) =
        grid t0 (12 * (1 - 1) + 1)
      rw [floor5_eq_self t0 h5]
      congr 1
      omega
    | cons v1 rest1 =>
      rw [hourlySeries_getLastD (v1 :: rest1) (t0 + 60) t0 (by simp)]
      rw [floor5_eq_self t0 h5, floor5_eq_self _ (by omega)]
      congr 1
      simp only [List.length_cons]
      omega

/-- One segment holds 12 values: 11 intermediates and the end point. -/
theorem segment_length (s e : ℚ) : (segment s e).length = 12 := by
  rw [segment, List.length_append, List.length_map, List.length_range]
  rfl

/-- Each consecutive pair contributes 12 generated values. -/
theorem pairSegments_length (vs : List ℚ) :
    (pairSegments vs).length = 12 * (vs.length - 1) := by
  induction vs with
  | nil => rfl
  | cons s rest ih =>
    cases rest with
    | nil => rfl
    | cons e rest1 =>
      rw [show pairSegments (s :: e :: rest1) =
            segment s e ++ pairSegments (e :: rest1) from rfl]
      rw [List.length_append, segment_length, ih]
      simp only [List.length_cons]
      omega

/-- The generated data of a nonempty series has `12 * (n - 1) + 1` values. -/
theorem interpValues_length (vs : List ℚ) (h : vs ≠ []) :
    (interpValues vs).length = 12 * (vs.length - 1) + 1 := by
  cases vs with
  | nil => exact absurd rfl h
  | cons v rest =>
    simp [interpValues, pairSegments_length]

/-- C3 amended: for at least two points, the "linear" custom interpolation
returns a series exactly when the real-elapsed-time resampled index has
as many labels as the `12 * (n - 1) + 1` fixed-spacing values; it then
pairs that index with the fixed-spacing values (which can misalign), and
otherwise the series constructor raises a length mismatch. -/
theorem non_hourly_behavior (series : List (Nat × ℚ)) (h2 : 2 ≤ series.length) :
    custom_linear_interpolation series "linear" =
      if (resampledIndex (series.map Prod.fst)).length = 12 * (series.length - 1) + 1
      then Except.ok (some ((resampledIndex (series.map Prod.fst)).zip
             (interpValues (series.map Prod.snd))))
      else Except.error "ValueError: Length of values does not match length of index" := by
  cases series with
  | nil => simp at h2
  | cons p rest =>
    have hlen : (interpValues ((p :: rest).map Prod.snd)).length =
        12 * ((p :: rest).length - 1) + 1 := by
      rw [interpValues_length _ (by simp)]
      simp
    have step : custom_linear_interpolation (p :: rest) "linear" =
        if (interpValues ((p :: rest).map Prod.snd)).length =
            (resampledIndex ((p :: rest).map Prod.fst)).length then
          Except.ok (some ((resampledIndex ((p :: rest).map Prod.fst)).zip
            (interpValues ((p :: rest).map Prod.snd))))
        else Except.error
          "ValueError: Length of values does not match length of index" := rfl
    rw [step]
    by_cases hc : (resampledIndex ((p :: rest).map Prod.fst)).length =
        12 * ((p :: rest).length - 1) + 1
    · rw [if_pos (by rw [hlen, hc]), if_pos hc]
    · rw [if_neg (fun hx => hc (hx.symm.trans hlen)), if_neg hc]

/-- Witness for the amended C3: three points spaced 55 and 65 minutes apart
(totalling two hours) return a series whose value at the middle sample's
timestamp 55 is the fixed-spacing value 121/12, not the sample 11. -/
theorem non_hourly_behavior_witness :
    2 ≤ ([(0, (0 : ℚ)), (55, 11), (120, 12)] : List (Nat × ℚ)).length ∧
    (resampledIndex (([(0, (0 : ℚ)), (55, 11), (120, 12)] :
        List (Nat × ℚ)).map Prod.fst)).length = 12 * 2 + 1 ∧
    custom_linear_interpolation [(0, (0 : ℚ)), (55, 11), (120, 12)] "linear" =
      Except.ok (some ((resampledIndex (([(0, (0 : ℚ)), (55, 11), (120, 12)] :
        List (Nat × ℚ)).map Prod.fst)).zip
        (interpValues (([(0, (0 : ℚ)), (55, 11), (120, 12)] :
          List (Nat × ℚ)).map Prod.snd)))) ∧
    valueAt ((resampledIndex (([(0, (0 : ℚ)), (55, 11), (120, 12)] :
        List (Nat × ℚ)).map Prod.fst)).zip
        (interpValues (([(0, (0 : ℚ)), (55, 11), (120, 12)] :
          List (Nat × ℚ)).map Prod.snd))) 55 = some (121 / 12) ∧
    ((121 : ℚ) / 12) ≠ 11 := by
  refine ⟨by decide, by decide, ?_, ?_, by norm_num⟩
  · have h := non_hourly_behavior [(0, (0 : ℚ)), (55, 11), (120, 12)] (by decide)
    rw [if_pos (by decide)] at h
    exact h
  · have h : valueAt ((resampledIndex (([(0, (0 : ℚ)), (55, 11), (120, 12)] :
        List (Nat × ℚ)).map Prod.fst)).zip
        (interpValues (([(0, (0 : ℚ)), (55, 11), (120, 12)] :
          List (Nat × ℚ)).map Prod.snd))) 55 =
        some (((11 : ℚ) - 0) / 12 * (((10 : ℕ) : ℚ) + 1) + 0) := rfl
    rw [h]
    norm_num

/-- Peeling the first pair off the generated data: the first value and its
11 intermediates, then the data generated from the remaining values. -/
theorem interpValues_cons_cons (v0 v1 : ℚ) (rest : List ℚ) :
    interpValues (v0 :: v1 :: rest) =
      (v0 :: (List.range 11).map (fun k : ℕ => (v1 - v0) / 12 * (k + 1) + v0)) ++
        interpValues (v1 :: rest) := by
  show v0 :: pairSegments (v0 :: v1 :: rest) = _
  rw [show pairSegments (v0 :: v1 :: rest) =
        segment v0 v1 ++ pairSegments (v1 :: rest) from rfl]
  show v0 :: (segment v0 v1 ++ pairSegments (v1 :: rest)) =
    _ ++ (v1 :: pairSegments (v1 :: rest))
  rw [segment]
  simp [List.cons_append, List.append_assoc]

/-- Looking a grid label up in the zipped result reads the data at the
label's position. -/
theorem valueAt_grid_zip {α : Type} (n a : Nat) (data : List α) (m : Nat)
    (hm : m < n) (hd : m < data.length) :
    valueAt ((grid a n).zip data) (a + 5 * m) = data[m]? := by
  induction n generalizing a data m with
  | zero => omega
  | succ n ih =>
    cases data with
    | nil => simp at hd
    | cons d ds =>
      show valueAt ((a, d) :: (grid (a + 5) n).zip ds) (a + 5 * m) = _
      cases m with
      | zero =>
        simp [valueAt, List.find?]
      | succ m =>
        have hne : (a == a + 5 * (m + 1)) = false := by
          simp only [beq_eq_false_iff_ne, ne_eq]
          omega
        have step : valueAt ((a, d) :: (grid (a + 5) n).zip ds) (a + 5 * (m + 1)) =
            valueAt ((grid (a + 5) n).zip ds) (a + 5 * (m + 1)) := by
          simp [valueAt, List.find?, hne]
        rw [step, show a + 5 * (m + 1) = (a + 5) + 5 * m from by omega]
        rw [ih (a + 5) ds m (by omega) (by simpa using hd)]
        exact (List.getElem?_cons_succ).symm

/-- The data value at position `12 * i` is the `i`-th original sample. -/
theorem interpValues_sample : ∀ (vs : List ℚ) (i : Nat), i < vs.length →
    (interpValues vs)[12 * i]? = vs[i]? := by
  intro vs
  induction vs with
  | nil => intro i hi; simp at hi
  | cons v0 rest ih =>
    intro i hi
    cases i with
    | zero => simp [interpValues]
    | succ i =>
      cases rest with
      | nil => simp at hi
      | cons v1 rest1 =>
        rw [interpValues_cons_cons]
        have hlen : (v0 :: (List.range 11).map
            (fun k : ℕ => (v1 - v0) / 12 * (k + 1) + v0)).length = 12 := by simp
        rw [List.getElem?_append_right (by rw [hlen]; omega), hlen,
          show 12 * (i + 1) - 12 = 12 * i from by omega]
        rw [ih i (by simpa using hi)]
        exact (List.getElem?_cons_succ).symm

/-- The data value at position `k + 1` for `k < 11` is the `(k+1)`-st
intermediate of the first pair. -/
theorem interpValues_get_mid (v0 v1 : ℚ) (rest : List ℚ) (k : Nat)
    (hk : k < 11) :
    (interpValues (v0 :: v1 :: rest))[k + 1]? =
      some ((v1 - v0) / 12 * (k + 1) + v0) := by
  rw [interpValues_cons_cons]
  rw [List.getElem?_append_left (by simp; omega), List.getElem?_cons_succ]
  rw [List.getElem?_map, List.getElem?_range hk]
  rfl

/-- The loop's generated segments coincide with the specification's. -/
theorem pairSegments_eq_spec (vs : List ℚ) :
    pairSegments vs = specPairSegments vs := by
  induction vs with
  | nil => rfl
  | cons s rest ih =>
    cases rest with
    | nil => rfl
    | cons e rest1 =>
      show segment s e ++ pairSegments (e :: rest1) =
        specSegment s e ++ specPairSegments (e :: rest1)
      rw [ih]
      congr 1
      rw [segment, specSegment]
      congr 1
      exact List.map_congr_left fun k _ => by ring

/-- The generated data coincides with the specification's sequence. -/
theorem interpValues_eq_spec (vs : List ℚ) :
    interpValues vs = specInterpSeq vs := by
  cases vs with
  | nil => rfl
  | cons v rest =>
    show v :: pairSegments (v :: rest) = v :: specPairSegments (v :: rest)
    rw [pairSegments_eq_spec]

/-- On an aligned hourly series the custom interpolation succeeds and pairs
the grid with the generated data. -/
theorem custom_hourly_eq (t0 : Nat) (vs : List ℚ) (h5 : t0 % 5 = 0)
    (h : vs ≠ []) :
    custom_linear_interpolation (hourlySeries t0 vs) "linear" =
      Except.ok (some ((grid t0 (12 * (vs.length - 1) + 1)).zip
        (interpValues vs))) := by
  cases vs with
  | nil => exact absurd rfl h
  | cons v rest =>
    have hidx := resampledIndex_hourly t0 (v :: rest) h5 (by simp)
    have hsnd := hourlySeries_map_snd t0 (v :: rest)
    have step : custom_linear_interpolation (hourlySeries t0 (v :: rest)) "linear" =
        if (interpValues ((hourlySeries t0 (v :: rest)).map Prod.snd)).length =
            (resampledIndex ((hourlySeries t0 (v :: rest)).map Prod.fst)).length then
          Except.ok (some ((resampledIndex ((hourlySeries t0 (v :: rest)).map Prod.fst)).zip
            (interpValues ((hourlySeries t0 (v :: rest)).map Prod.snd))))
        else Except.error
          "ValueError: Length of values does not match length of index" := rfl
    rw [step, hsnd, hidx]
    rw [if_pos (by rw [interpValues_length _ (by simp), grid_length])]

/-- C1 fails on the code when the hourly series is not 5-minute aligned: for
the series starting at minute 2, the returned series has no entry at the
original sample's timestamp 2 at all (the resample grid starts at the bin
label 0), so the value there cannot equal the sample. -/
theorem custom_interpolation_unaligned_counterexample :
    custom_linear_interpolation (hourlySeries 2 [0, 12]) "linear" =
        Except.ok (some ((grid 0 13).zip (interpValues [0, 12]))) ∧
      valueAt ((grid 0 13).zip (interpValues [0, 12])) 2 = none :=
  ⟨rfl, rfl⟩

/-- C1 amended: for an hourly spaced series of at least two samples whose
first timestamp is 5-minute aligned, the "linear" custom interpolation
succeeds and its values are exactly the sequence the claim describes
(the first input value, then for each consecutive pair the 11
intermediates s + k*(e-s)/12 followed by the end value); the value one
5-minute step after the first sample is v0 + (v1-v0)/12, and the value
at every original sample's timestamp is that sample exactly. -/
theorem custom_interpolation_hourly (t0 : Nat) (vs : List ℚ)
    (h5 : t0 % 5 = 0) (h2 : 2 ≤ vs.length) :
    ∃ r, custom_linear_interpolation (hourlySeries t0 vs) "linear" =
        Except.ok (some r) ∧
      r.map Prod.snd = specInterpSeq vs ∧
      (∀ i, i < vs.length → valueAt r (t0 + 60 * i) = vs[i]?) ∧
      (∀ v0 v1 rest, vs = v0 :: v1 :: rest →
        valueAt r (t0 + 5) = some (v0 + (v1 - v0) / 12)) := by
  have hne : vs ≠ [] := by
    intro hx
    rw [hx] at h2
    simp at h2
  refine ⟨(grid t0 (12 * (vs.length - 1) + 1)).zip (interpValues vs),
    custom_hourly_eq t0 vs h5 hne, ?_, ?_, ?_⟩
  · rw [List.map_snd_zip _ _ (by rw [interpValues_length vs hne, grid_length])]
    exact interpValues_eq_spec vs
  · intro i hi
    rw [show t0 + 60 * i = t0 + 5 * (12 * i) from by omega]
    rw [valueAt_grid_zip (12 * (vs.length - 1) + 1) t0 (interpValues vs) (12 * i)
      (by omega) (by rw [interpValues_length vs hne]; omega)]
    exact interpValues_sample vs i hi
  · intro v0 v1 rest hvs
    subst hvs
    rw [show t0 + 5 = t0 + 5 * 1 from by omega]
    rw [valueAt_grid_zip (12 * ((v0 :: v1 :: rest).length - 1) + 1) t0
      (interpValues (v0 :: v1 :: rest)) 1
      (by simp only [List.length_cons]; omega)
      (by rw [interpValues_length _ (by simp)]; simp only [List.length_cons]; omega)]
    rw [show (1 : ℕ) = 0 + 1 from rfl, interpValues_get_mid v0 v1 rest 0 (by omega)]
    congr 1
    push_cast
    ring

/-- Witness for the amended C1 at the concrete aligned hourly series
starting at minute 0 with values 0 and 12. -/
theorem custom_interpolation_hourly_witness :
    0 % 5 = 0 ∧ 2 ≤ ([0, 12] : List ℚ).length ∧
      (∃ r, custom_linear_interpolation (hourlySeries 0 [0, 12]) "linear" =
          Except.ok (some r) ∧
        r.map Prod.snd = specInterpSeq [0, 12] ∧
        (∀ i, i < ([0, 12] : List ℚ).length →
          valueAt r (0 + 60 * i) = ([0, 12] : List ℚ)[i]?) ∧
        (∀ v0 v1 rest, ([0, 12] : List ℚ) = v0 :: v1 :: rest →
          valueAt r (0 + 5) = some (v0 + (v1 - v0) / 12))) :=
  ⟨rfl, by simp, custom_interpolation_hourly 0 [0, 12] rfl (by simp)⟩

/-- The first value's block (itself and its 11 intermediates) is the uniform
sequence `(v1-v0)/12 * k + v0` for `k < 12`. -/
theorem prefix_block_eq_range12 (v0 v1 : ℚ) :
    (v0 :: (List.range 11).map (fun k : ℕ => (v1 - v0) / 12 * (k + 1) + v0)) =
      (List.range 12).map (fun k : ℕ => (v1 - v0) / 12 * k + v0) := by
  apply List.ext_getElem?
  intro i
  cases i with
  | zero =>
    rw [List.getElem?_cons_zero, List.getElem?_map,
      List.getElem?_range (show 0 < 12 from by omega)]
    show some v0 = some ((v1 - v0) / 12 * (((0 : ℕ) : ℚ)) + v0)
    congr 1
    push_cast
    ring
  | succ j =>
    rw [List.getElem?_cons_succ, List.getElem?_map, List.getElem?_map]
    by_cases hj : j < 11
    · rw [List.getElem?_range hj, List.getElem?_range (show j + 1 < 12 from by omega)]
      show some ((v1 - v0) / 12 * (↑j + 1) + v0) =
        some ((v1 - v0) / 12 * ((↑(j + 1) : ℚ)) + v0)
      congr 1
      push_cast
      ring
    · rw [List.getElem?_eq_none (by simp only [List.length_range]; omega),
        List.getElem?_eq_none (by simp only [List.length_range]; omega)]
      rfl

/-- Within the first hour, linear interpolation between the first two
samples gives the uniform twelfth steps. -/
theorem interpAt_first (t0 : Nat) (v0 v1 : ℚ) (S : List (Nat × ℚ)) (k : Nat)
    (hk : k < 12) :
    interpAt ((t0, v0) :: (t0 + 60, v1) :: S) (t0 + 5 * k) =
      (v1 - v0) / 12 * k + v0 := by
  show (if t0 + 5 * k ≤ t0 + 60 then
      v0 + ((↑(t0 + 5 * k) : ℚ) - ↑t0) * (v1 - v0) / (↑(t0 + 60) - ↑t0)
    else interpAt ((t0 + 60, v1) :: S) (t0 + 5 * k)) = _
  rw [if_pos (by omega)]
  push_cast
  ring

/-- At its own first timestamp an hourly series interpolates to its first
value. -/
theorem interpAt_hourly_self (t1 : Nat) (v1 : ℚ) (rest : List ℚ) :
    interpAt (hourlySeries t1 (v1 :: rest)) t1 = v1 := by
  cases rest with
  | nil => rfl
  | cons v2 rest2 =>
    show (if t1 ≤ t1 + 60 then
        v1 + ((t1 : ℚ) - ↑t1) * (v2 - v1) / (↑(t1 + 60) - ↑t1)
      else interpAt (hourlySeries (t1 + 60) (v2 :: rest2)) t1) = v1
    rw [if_pos (by omega)]
    push_cast
    ring

/-- Past the second sample, interpolation in the full series agrees with
interpolation in the series that starts one hour later. -/
theorem interpAt_shift (t0 : Nat) (v0 v1 : ℚ) (rest : List ℚ) (t : Nat)
    (ht : t0 + 60 ≤ t) :
    interpAt (hourlySeries t0 (v0 :: v1 :: rest)) t =
      interpAt (hourlySeries (t0 + 60) (v1 :: rest)) t := by
  have unfold1 : interpAt (hourlySeries t0 (v0 :: v1 :: rest)) t =
      if t ≤ t0 + 60 then
        v0 + ((t : ℚ) - ↑t0) * (v1 - v0) / (↑(t0 + 60) - ↑t0)
      else interpAt (hourlySeries (t0 + 60) (v1 :: rest)) t := rfl
  rw [unfold1]
  by_cases hle : t ≤ t0 + 60
  · rw [if_pos hle]
    have hteq : t = t0 + 60 := by omega
    subst hteq
    rw [interpAt_hourly_self (t0 + 60) v1 rest]
    push_cast
    ring
  · rw [if_neg hle]

/-- Every grid label is at least the grid's base. -/
theorem grid_ge (a n t : Nat) (ht : t ∈ grid a n) : a ≤ t := by
  rw [grid_eq_range_map] at ht
  obtain ⟨k, _, rfl⟩ := List.mem_map.mp ht
  omega

/-- On the grid of an hourly series, mapping the library interpolation over
the labels produces exactly the grid zipped with the custom data. -/
theorem built_in_map_eq_zip (v : ℚ) (rest : List ℚ) : ∀ t0 : Nat,
    (grid t0 (12 * ((v :: rest).length - 1) + 1)).map
        (fun t => (t, interpAt (hourlySeries t0 (v :: rest)) t)) =
      (grid t0 (12 * ((v :: rest).length - 1) + 1)).zip
        (interpValues (v :: rest)) := by
  induction rest generalizing v with
  | nil => intro t0; rfl
  | cons v1 rest1 ih =>
    intro t0
    have hsplit : 12 * ((v :: v1 :: rest1).length - 1) + 1 =
        12 + (12 * ((v1 :: rest1).length - 1) + 1) := by
      simp only [List.length_cons]
      omega
    rw [hsplit, grid_add t0 12 _, show t0 + 5 * 12 = t0 + 60 from by omega,
      List.map_append, interpValues_cons_cons, prefix_block_eq_range12]
    rw [List.zip_append (by simp [grid_length])]
    congr 1
    · rw [grid_eq_range_map t0 12, List.zip_map', List.map_map]
      exact List.map_congr_left fun k hk => by
        have hk12 : k < 12 := List.mem_range.mp hk
        show (t0 + 5 * k,
            interpAt ((t0, v) :: (t0 + 60, v1) ::
              hourlySeries (t0 + 60 + 60) rest1) (t0 + 5 * k)) = _
        rw [interpAt_first t0 v v1 _ k hk12]
    · rw [← ih v1 (t0 + 60)]
      exact List.map_congr_left fun t ht => by
        rw [interpAt_shift t0 v v1 rest1 t (grid_ge _ _ _ ht)]

/-- C4: on an aligned, genuinely hourly series of at least two samples, the
custom interpolation and the library interpolation return the same
series: the same values at the same 5-minute grid timestamps. -/
theorem custom_matches_built_in_on_hourly (t0 : Nat) (vs : List ℚ)
    (h5 : t0 % 5 = 0) (h2 : 2 ≤ vs.length) :
    (built_in_interpolation (hourlySeries t0 vs) "linear").isSome = true ∧
      custom_linear_interpolation (hourlySeries t0 vs) "linear" =
        Except.ok (built_in_interpolation (hourlySeries t0 vs) "linear") := by
  have hne : vs ≠ [] := by
    intro hx
    rw [hx] at h2
    simp at h2
  have hb : built_in_interpolation (hourlySeries t0 vs) "linear" =
      some ((grid t0 (12 * (vs.length - 1) + 1)).zip (interpValues vs)) := by
    show (if ("linear" : String) = "linear" then
        some ((resampledIndex ((hourlySeries t0 vs).map Prod.fst)).map
          (fun t => (t, interpAt (hourlySeries t0 vs) t)))
      else none) = _
    rw [if_pos rfl, resampledIndex_hourly t0 vs h5 hne]
    cases vs with
    | nil => exact absurd rfl hne
    | cons v rest => exact congrArg some (built_in_map_eq_zip v rest t0)
  constructor
  · rw [hb]
    rfl
  · rw [hb]
    exact custom_hourly_eq t0 vs h5 hne

/-- Witness for C4 at the concrete aligned hourly series starting at minute
0 with values 0 and 12. -/
theorem custom_matches_built_in_on_hourly_witness :
    0 % 5 = 0 ∧ 2 ≤ ([0, 12] : List ℚ).length ∧
      (built_in_interpolation (hourlySeries 0 [0, 12]) "linear").isSome = true ∧
      custom_linear_interpolation (hourlySeries 0 [0, 12]) "linear" =
        Except.ok (built_in_interpolation (hourlySeries 0 [0, 12]) "linear") :=
  ⟨rfl, by simp, custom_matches_built_in_on_hourly 0 [0, 12] rfl (by simp)⟩

/-- Unfolding label lookup one row at a time. -/
theorem valueAt_cons {α : Type} (p : Nat × α) (l : List (Nat × α)) (t : Nat) :
    valueAt (p :: l) t = if p.1 == t then some p.2 else valueAt l t := by
  cases hb : (p.1 == t) with
  | true => simp [valueAt, List.find?, hb]
  | false => simp [valueAt, List.find?, hb]

/-- A timestamp survives de-duplication exactly when it occurs in the list
and was not seen before. -/
theorem mem_dropDupKeys_keys {α : Type} :
    ∀ (l : List (Nat × α)) (seen : List Nat) (t : Nat),
      t ∈ (dropDupKeys seen l).map Prod.fst ↔
        t ∈ l.map Prod.fst ∧ t ∉ seen := by
  intro l
  induction l with
  | nil =>
    intro seen t
    simp [dropDupKeys]
  | cons p rest ih =>
    intro seen t
    by_cases hp : p.1 ∈ seen
    · rw [show dropDupKeys seen (p :: rest) = dropDupKeys seen rest from by
        simp [dropDupKeys, hp]]
      rw [ih seen t]
      simp only [List.map_cons, List.mem_cons]
      constructor
      · rintro ⟨h1, h2⟩
        exact ⟨Or.inr h1, h2⟩
      · rintro ⟨h1 | h1, h2⟩
        · exact absurd (h1 ▸ hp) h2
        · exact ⟨h1, h2⟩
    · rw [show dropDupKeys seen (p :: rest) = p :: dropDupKeys (p.1 :: seen) rest from by
        simp [dropDupKeys, hp]]
      simp only [List.map_cons, List.mem_cons]
      rw [ih (p.1 :: seen) t]
      simp only [List.mem_cons]
      constructor
      · rintro (h1 | ⟨h1, h2⟩)
        · exact ⟨Or.inl h1, h1 ▸ hp⟩
        · exact ⟨Or.inr h1, fun hs => h2 (Or.inr hs)⟩
      · rintro ⟨h1 | h1, h2⟩
        · exact Or.inl h1
        · by_cases htp : t = p.1
          · exact Or.inl htp
          · refine Or.inr ⟨h1, fun hs => ?_⟩
            rcases hs with hs1 | hs2
            · exact htp hs1
            · exact h2 hs2

/-- De-duplication leaves no duplicate timestamps. -/
theorem nodup_dropDupKeys_keys {α : Type} :
    ∀ (l : List (Nat × α)) (seen : List Nat),
      ((dropDupKeys seen l).map Prod.fst).Nodup := by
  intro l
  induction l with
  | nil =>
    intro seen
    simp [dropDupKeys]
  | cons p rest ih =>
    intro seen
    by_cases hp : p.1 ∈ seen
    · rw [show dropDupKeys seen (p :: rest) = dropDupKeys seen rest from by
        simp [dropDupKeys, hp]]
      exact ih seen
    · rw [show dropDupKeys seen (p :: rest) = p :: dropDupKeys (p.1 :: seen) rest from by
        simp [dropDupKeys, hp]]
      rw [List.map_cons, List.nodup_cons]
      refine ⟨fun hmem => ?_, ih (p.1 :: seen)⟩
      rw [mem_dropDupKeys_keys] at hmem
      exact hmem.2 (List.mem_cons_self p.1 seen)

/-- De-duplication does not change lookups of unseen timestamps. -/
theorem valueAt_dropDupKeys {α : Type} :
    ∀ (l : List (Nat × α)) (seen : List Nat) (t : Nat), t ∉ seen →
      valueAt (dropDupKeys seen l) t = valueAt l t := by
  intro l
  induction l with
  | nil =>
    intro seen t _
    rfl
  | cons p rest ih =>
    intro seen t ht
    by_cases hp : p.1 ∈ seen
    · rw [show dropDupKeys seen (p :: rest) = dropDupKeys seen rest from by
        simp [dropDupKeys, hp]]
      rw [ih seen t ht, valueAt_cons]
      have hne : (p.1 == t) = false := by
        simp only [beq_eq_false_iff_ne, ne_eq]
        intro he
        exact ht (he ▸ hp)
      rw [hne]
      rfl
    · rw [show dropDupKeys seen (p :: rest) = p :: dropDupKeys (p.1 :: seen) rest from by
        simp [dropDupKeys, hp]]
      rw [valueAt_cons, valueAt_cons]
      by_cases hpt : (p.1 == t) = true
      · rw [if_pos hpt, if_pos hpt]
      · rw [if_neg hpt, if_neg hpt]
        refine ih (p.1 :: seen) t fun hmem => ?_
        rcases List.mem_cons.mp hmem with he | hs
        · exact hpt (by simp [he])
        · exact ht hs

/-- A lookup that succeeds in the first table ignores the second. -/
theorem valueAt_append_left {α : Type} :
    ∀ (l1 l2 : List (Nat × α)) (t : Nat), t ∈ l1.map Prod.fst →
      valueAt (l1 ++ l2) t = valueAt l1 t := by
  intro l1
  induction l1 with
  | nil =>
    intro l2 t ht
    simp at ht
  | cons p rest ih =>
    intro l2 t ht
    rw [List.cons_append, valueAt_cons, valueAt_cons]
    by_cases h : (p.1 == t) = true
    · rw [if_pos h, if_pos h]
    · rw [if_neg h, if_neg h]
      rw [List.map_cons] at ht
      rcases List.mem_cons.mp ht with he | hs
      · exact absurd (by simp [he]) h
      · exact ih l2 t hs

/-- C5: the merge of lines 125-126 builds a table whose timestamps are the
union of both tables' timestamps with no duplicates, and at a timestamp
present in both tables its row is the historical (primary) table's row,
first occurrence winning. -/
theorem merge_union_first_wins {α : Type} (hist fore : List (Nat × α)) :
    (∀ t, t ∈ (all_weather hist fore).map Prod.fst ↔
        t ∈ hist.map Prod.fst ∨ t ∈ fore.map Prod.fst) ∧
      ((all_weather hist fore).map Prod.fst).Nodup ∧
      (∀ t, t ∈ hist.map Prod.fst → t ∈ fore.map Prod.fst →
        valueAt (all_weather hist fore) t = valueAt hist t) := by
  refine ⟨fun t => ?_, nodup_dropDupKeys_keys _ _, fun t ht _ => ?_⟩
  · rw [all_weather, mem_dropDupKeys_keys, List.map_append, List.mem_append]
    simp
  · rw [all_weather, valueAt_dropDupKeys _ _ _ (List.not_mem_nil t)]
    exact valueAt_append_left hist fore t ht

/-- Witness for C5 on two concrete tables sharing the timestamp 10. -/
theorem merge_union_first_wins_witness :
    10 ∈ ([(0, (1 : ℚ)), (10, 2)] : List (Nat × ℚ)).map Prod.fst ∧
      10 ∈ ([(10, (5 : ℚ)), (20, 6)] : List (Nat × ℚ)).map Prod.fst ∧
      valueAt (all_weather [(0, (1 : ℚ)), (10, 2)] [(10, (5 : ℚ)), (20, 6)]) 10 =
        valueAt [(0, (1 : ℚ)), (10, 2)] 10 ∧
      valueAt (all_weather [(0, (1 : ℚ)), (10, 2)] [(10, (5 : ℚ)), (20, 6)]) 10 =
        some 2 :=
  ⟨by simp, by simp,
    (merge_union_first_wins [(0, (1 : ℚ)), (10, 2)] [(10, (5 : ℚ)), (20, 6)]).2.2
      10 (by simp) (by simp), rfl⟩

/-- With duplicate-free timestamps, looking a member row's timestamp up
returns that row's value. -/
theorem valueAt_eq_some_of_mem {α : Type} :
    ∀ (l : List (Nat × α)) (p : Nat × α), (l.map Prod.fst).Nodup → p ∈ l →
      valueAt l p.1 = some p.2 := by
  intro l
  induction l with
  | nil =>
    intro p _ hp
    simp at hp
  | cons q rest ih =>
    intro p hnd hp
    rw [valueAt_cons]
    rcases List.mem_cons.mp hp with rfl | hmem
    · rw [if_pos (by simp)]
    · have hne : (q.1 == p.1) = false := by
        simp only [beq_eq_false_iff_ne, ne_eq]
        intro he
        rw [List.map_cons, List.nodup_cons] at hnd
        exact hnd.1 (he ▸ List.mem_map_of_mem Prod.fst hmem)
      rw [hne]
      rw [List.map_cons, List.nodup_cons] at hnd
      exact ih p hnd.2 hmem

/-- A successful lookup exhibits a member row. -/
theorem mem_of_valueAt_eq_some {α : Type} :
    ∀ (l : List (Nat × α)) (t : Nat) (v : α), valueAt l t = some v →
      (t, v) ∈ l := by
  intro l
  induction l with
  | nil =>
    intro t v h
    simp [valueAt] at h
  | cons q rest ih =>
    intro t v h
    rw [valueAt_cons] at h
    by_cases hq : (q.1 == t) = true
    · rw [if_pos hq] at h
      have h1 : q.1 = t := by simpa using hq
      have h2 : q.2 = v := by
        simpa using h
      have : q = (t, v) := by
        cases q
        simp only [Prod.mk.injEq]
        exact ⟨h1, h2⟩
      exact this ▸ List.mem_cons_self q rest
    · rw [if_neg hq] at h
      exact List.mem_cons_of_mem q (ih t v h)

/-- The shifted Sunday timestamps written as a map over the Sunday
timestamps. -/
theorem sunObsShifted_keys (hist : List (Nat × String)) :
    (sunObsShifted hist).map Prod.fst =
      ((hist.filter (fun q => weekday q.1 == 6)).map Prod.fst).map
        (fun x => x - 1440) := by
  rw [sunObsShifted, List.map_map, List.map_map]
  rfl

/-- Sunday timestamps are at least six days into the week. -/
theorem sunday_key_ge (hist : List (Nat × String)) (x : Nat)
    (hx : x ∈ (hist.filter (fun q => weekday q.1 == 6)).map Prod.fst) :
    6 * 1440 ≤ x := by
  rw [List.mem_map] at hx
  obtain ⟨p, hp, rfl⟩ := hx
  rw [List.mem_filter] at hp
  have h6 : weekday p.1 = 6 := by simpa using hp.2
  unfold weekday at h6
  omega

/-- With duplicate-free input timestamps the shifted Sunday table has
duplicate-free timestamps. -/
theorem sunObsShifted_nodup (hist : List (Nat × String))
    (hnd : (hist.map Prod.fst).Nodup) :
    ((sunObsShifted hist).map Prod.fst).Nodup := by
  rw [sunObsShifted_keys]
  refine List.Nodup.map_on ?_
    (hnd.sublist ((List.filter_sublist hist).map Prod.fst))
  intro x hx y hy hxy
  have hgx := sunday_key_ge hist x hx
  have hgy := sunday_key_ge hist y hy
  omega

/-- C8: a weekend date `d` is counted as rainy exactly when some historical
observation, either on the Saturday of date `d` or on the Sunday of date
`d + 1`, carries a condition code containing the substring "rain"; one
rainy observation on either day suffices, even when the other day has no
observations. -/
theorem rainy_weekend_membership (hist : List (Nat × String))
    (hnd : (hist.map Prod.fst).Nodup) (d : Nat) :
    rainy_weekend_count hist = (countedDates hist).length ∧
      (d ∈ countedDates hist ↔
        ∃ p ∈ hist, pyContains p.2 "rain" = true ∧
          ((weekday p.1 = 5 ∧ dateOf p.1 = d) ∨
           (weekday p.1 = 6 ∧ dateOf p.1 = d + 1))) := by
  refine ⟨rfl, ?_⟩
  have hmem : d ∈ countedDates hist ↔
      ∃ t, t ∈ weekendKeys hist ∧
        (containsRain (valueAt (satObs hist) t) ||
         containsRain (valueAt (sunObsShifted hist) t)) = true ∧
        dateOf t = d := by
    unfold countedDates rainyFlags
    rw [List.mem_dedup, List.mem_map]
    constructor
    · rintro ⟨q, hq, hdq⟩
      rw [List.mem_filter] at hq
      obtain ⟨hq1, hq2⟩ := hq
      rw [List.mem_map] at hq1
      obtain ⟨t, ht, rfl⟩ := hq1
      exact ⟨t, ht, by simpa using hq2, hdq⟩
    · rintro ⟨t, ht, hflag, hdt⟩
      exact ⟨(t, containsRain (valueAt (satObs hist) t) ||
          containsRain (valueAt (sunObsShifted hist) t)),
        List.mem_filter.mpr ⟨List.mem_map_of_mem _ ht, by simpa using hflag⟩, hdt⟩
  rw [hmem]
  constructor
  · rintro ⟨t, _, hflag, hdt⟩
    rw [Bool.or_eq_true] at hflag
    rcases hflag with hs | hs
    · cases hv : valueAt (satObs hist) t with
      | none =>
        rw [hv] at hs
        simp [containsRain] at hs
      | some s =>
        rw [hv] at hs
        have hmem2 := mem_of_valueAt_eq_some (satObs hist) t s hv
        rw [satObs, List.mem_filter] at hmem2
        obtain ⟨hph, hwd⟩ := hmem2
        exact ⟨(t, s), hph, by simpa [containsRain] using hs,
          Or.inl ⟨by simpa using hwd, hdt⟩⟩
    · cases hv : valueAt (sunObsShifted hist) t with
      | none =>
        rw [hv] at hs
        simp [containsRain] at hs
      | some s =>
        rw [hv] at hs
        have hmem2 := mem_of_valueAt_eq_some (sunObsShifted hist) t s hv
        rw [sunObsShifted, List.mem_map] at hmem2
        obtain ⟨q, hq, heq⟩ := hmem2
        obtain ⟨q1, q2⟩ := q
        injection heq with hq1 hq2
        subst hq2
        subst hq1
        rw [List.mem_filter] at hq
        obtain ⟨hqh, hwd⟩ := hq
        have hwd6 : weekday q1 = 6 := by simpa using hwd
        have hge : 6 * 1440 ≤ q1 := by
          unfold weekday at hwd6
          omega
        refine ⟨(q1, q2), hqh, by simpa [containsRain] using hs,
          Or.inr ⟨hwd6, ?_⟩⟩
        unfold dateOf at hdt ⊢
        omega
  · rintro ⟨p, hph, hrain, hcase | hcase⟩
    · obtain ⟨hwd, hdate⟩ := hcase
      have hpmem : p ∈ satObs hist := by
        rw [satObs, List.mem_filter]
        exact ⟨hph, by simp [hwd]⟩
      have hndsat : ((satObs hist).map Prod.fst).Nodup := by
        rw [satObs]
        exact hnd.sublist ((List.filter_sublist hist).map Prod.fst)
      have hv := valueAt_eq_some_of_mem (satObs hist) p hndsat hpmem
      refine ⟨p.1, ?_, ?_, hdate⟩
      · rw [weekendKeys, List.mem_dedup, List.mem_append]
        exact Or.inl (List.mem_map_of_mem Prod.fst hpmem)
      · rw [Bool.or_eq_true]
        exact Or.inl (by rw [hv]; simpa [containsRain] using hrain)
    · obtain ⟨hwd, hdate⟩ := hcase
      obtain ⟨p1, p2⟩ := p
      have hwd' : weekday p1 = 6 := hwd
      have hpmem : (p1, p2) ∈ hist.filter (fun q => weekday q.1 == 6) := by
        rw [List.mem_filter]
        exact ⟨hph, by simp [hwd']⟩
      have himg : (p1 - 1440, p2) ∈ sunObsShifted hist := by
        rw [sunObsShifted]
        exact List.mem_map.mpr ⟨(p1, p2), hpmem, rfl⟩
      have hv : valueAt (sunObsShifted hist) (p1 - 1440) = some p2 :=
        valueAt_eq_some_of_mem (sunObsShifted hist) (p1 - 1440, p2)
          (sunObsShifted_nodup hist hnd) himg
      have hge : 6 * 1440 ≤ p1 := by
        unfold weekday at hwd'
        omega
      refine ⟨p1 - 1440, ?_, ?_, ?_⟩
      · rw [weekendKeys, List.mem_dedup, List.mem_append]
        exact Or.inr (List.mem_map.mpr ⟨(p1 - 1440, p2), himg, rfl⟩)
      · rw [Bool.or_eq_true]
        refine Or.inr ?_
        rw [hv]
        simpa [containsRain] using hrain
      · have hdate' : dateOf p1 = d + 1 := hdate
        unfold dateOf at hdate' ⊢
        omega

/-- Witness for C8: a single Saturday observation "rain" at day 5, minute
600, with no Sunday observation at all, makes date 5 a counted rainy
weekend and the count equal to 1. -/
theorem rainy_weekend_membership_witness :
    (([(7800, "rain")] : List (Nat × String)).map Prod.fst).Nodup ∧
      5 ∈ countedDates [(7800, "rain")] ∧
      rainy_weekend_count [(7800, "rain")] = 1 :=
  ⟨by simp,
    (rainy_weekend_membership [(7800, "rain")] (by simp) 5).2.mpr
      ⟨(7800, "rain"), by simp, by decide, Or.inl (by decide)⟩,
    by decide⟩

end Meteo
